import Mathlib

/- Verification model of the instamatic TEM emulator command-dispatch server
(`start_server.py`).  Python objects, the device capability surface, the
shared-memory payload broker (`SharedImageProxy`), the worker loop
(`EmulatedDeviceServer.run` / `evaluate`), the wait-timeout discipline and the
registration handoff protocol (`handle`) are embedded as executable Lean
definitions; the theorems below settle the specification claims against them. -/

/-- Fixed identifier of the shared-memory segment (source constant `NAME`). -/
def NAME : String := "emulator"

/-- Size of the single socket read in `handle` (source constant `BUFFER_SIZE`). -/
def BUFFER_SIZE : Nat := 1024

/-- Polling interval in seconds used by the timed waits (source constant `TIMEOUT`). -/
def TIMEOUT : Rat := 1/2

/-- A Python runtime value, as far as the dispatch engine inspects it:
an opaque primitive, a numpy array (shape, dtype, flat byte contents),
a callable object (identified by its object identity), or the descriptor
dictionary built for large payloads. -/
inductive Obj where
  | prim (tag : String)
  | arr (shape : List Nat) (dtype : String) (bytes : List Nat)
  | callable (id : Nat)
  | descr (name : String) (shape : List Nat) (dtype : String)
  deriving Repr, DecidableEq

/-- Outcome of invoking a callable device attribute: a returned value, a raised
`TypeError` (from a mismatched signature or from the body), or any other
raised exception with its class name and constructor arguments. -/
inductive CallResult where
  | ok (v : Obj)
  | typeError
  | raises (kind : String) (args : List Obj)
  deriving Repr, DecidableEq

/-- A Python exception as the worker captures it:
`(e.__class__.__name__, e.args)`. -/
structure PyExc where
  kind : String
  args : List Obj
  deriving Repr, DecidableEq

/-- The emulated device, seen through the generic capability contract:
an attribute table and the call behaviour of each callable attribute. -/
structure Device where
  attrs : String → Option Obj
  call : Nat → List Obj → List (String × Obj) → CallResult

/-- Python call semantics at `f(*args, **kwargs)`: invoking a non-callable
object raises `TypeError` (the comment at the `except` in `evaluate` cites
exactly this); a callable behaves as the device defines. -/
def pyCall (d : Device) (f : Obj) (args : List Obj) (kwargs : List (String × Obj)) : CallResult :=
  match f with
  | .callable id => d.call id args kwargs
  | _ => .typeError

/-- A shared-memory segment handle: allocation identity and byte size. -/
structure Seg where
  sid : Nat
  size : Nat
  deriving Repr, DecidableEq

/-- The shared-memory world: the segment currently registered under `NAME`
(none if absent or unlinked), the heap of segment contents by allocation
identity, the allocation counter, and the class attribute
`SharedImageProxy.memory`. -/
structure ShmState where
  named : Option Seg
  bufs : List (Nat × List Nat)
  nextId : Nat
  memory : Option Seg
  deriving Repr, DecidableEq

/-- Creation call `SharedMemory(name=NAME, create=True, size=size)`: fails (FileExistsError,
modelled as `none`) iff a segment is already registered under `NAME`;
otherwise registers a fresh zero-filled segment and stores the handle in
`SharedImageProxy.memory` as the assignment in the source does. -/
def createSeg (s : ShmState) (size : Nat) : Option ShmState :=
  match s.named with
  | some _ => none
  | none =>
    some { named := some ⟨s.nextId, size⟩,
           bufs := (s.nextId, List.replicate size 0) :: s.bufs,
           nextId := s.nextId + 1,
           memory := some ⟨s.nextId, size⟩ }

/-- Method `SharedImageProxy.release`: returns immediately when `memory is None`;
otherwise closes the handle, unlinks the name (swallowing
`FileNotFoundError`) and clears `memory`. -/
def releaseP (s : ShmState) : ShmState :=
  match s.memory with
  | none => s
  | some _ => { s with named := none, memory := none }

/-- The `SharedImageProxy` method that allocates the segment (its source name
clashes with a reserved word of this development, hence `shmInit`): release
the current handle, attempt the creation, and on `FileExistsError` open the
stale segment, close it, unlink it tolerating `FileNotFoundError`, then retry
the creation exactly once; a second failure propagates. -/
def shmInit (s : ShmState) (image_size : Nat) : Except PyExc ShmState :=
  let s0 := releaseP s
  match createSeg s0 image_size with
  | some s1 => .ok s1
  | none =>
    match s0.named with
    | none => .error ⟨"FileNotFoundError", []⟩
    | some _ =>
      match createSeg { s0 with named := none } image_size with
      | some s2 => .ok s2
      | none => .error ⟨"FileExistsError", []⟩

/-- Overwrite the heap entry of segment `sid` with `data`
(models the copy `b[:] = image[:]` through the mapped buffer). -/
def writeBuf (bufs : List (Nat × List Nat)) (sid : Nat) (data : List Nat) :
    List (Nat × List Nat) :=
  bufs.map (fun p => if p.1 = sid then (sid, data) else p)

/-- Method `SharedImageProxy.push`: reading `image.nbytes` raises `AttributeError` on
a non-array; the segment is (re)allocated exactly when no buffer exists or the
existing buffer's byte size differs from the payload's; then the payload bytes
are copied into the mapped buffer. -/
def pushP (s : ShmState) (image : Obj) : Except PyExc ShmState :=
  match image with
  | .arr _shape _dtype bytes =>
    let need : Bool :=
      match s.memory with
      | none => true
      | some m => decide (m.size ≠ bytes.length)
    let step : Except PyExc ShmState :=
      if need then shmInit s bytes.length else .ok s
    match step with
    | .error e => .error e
    | .ok s1 =>
      match s1.memory with
      | some m => .ok { s1 with bufs := writeBuf s1.bufs m.sid bytes }
      | none => .error ⟨"TypeError", []⟩
  | _ => .error ⟨"AttributeError", [Obj.prim "nbytes"]⟩

/-- A receiver following a descriptor: open the segment registered under
`NAME` and read its bytes. -/
def readShared (s : ShmState) : Option (List Nat) :=
  match s.named with
  | some seg => (s.bufs.find? (fun p => decide (p.1 = seg.sid))).map Prod.snd
  | none => none

/-- The operation names special-cased for large payloads in `evaluate`. -/
def designated (name : String) : Bool :=
  decide (name = "get_image") || decide (name = "get_movie")

/-- Method `EmulatedDeviceServer.evaluate`, together with the attribute resolution it
performs: `getattr` on a missing name raises `AttributeError` and on a `None`
name raises `TypeError`; the call's `TypeError` is caught and degrades to
returning the attribute object itself; any other raised exception propagates;
for `get_image`/`get_movie` the result is pushed into the broker and replaced
by the descriptor dictionary built from `ret.shape` and `ret.dtype`. -/
def evaluateD (d : Device) (s : ShmState) (func_name : Option String)
    (args : List Obj) (kwargs : List (String × Obj)) : Except PyExc (Obj × ShmState) :=
  match func_name with
  | none => .error ⟨"TypeError", [Obj.prim "attribute name must be string"]⟩
  | some name =>
    match d.attrs name with
    | none => .error ⟨"AttributeError", [Obj.prim name]⟩
    | some f =>
      let retE : Except PyExc Obj :=
        match pyCall d f args kwargs with
        | .ok v => .ok v
        | .typeError => .ok f
        | .raises k a => .error ⟨k, a⟩
      match retE with
      | .error e => .error e
      | .ok ret =>
        if designated name then
          match pushP s ret with
          | .error e => .error e
          | .ok s1 =>
            match ret with
            | .arr shape dtype _ => .ok (Obj.descr NAME shape dtype, s1)
            | _ => .error ⟨"AttributeError", [Obj.prim "shape"]⟩
        else .ok (ret, s)

/-- A decoded request dictionary: the operation name read from the key
`func_name` with fallback to `attr_name`, plus optional `args` and `kwargs`. -/
structure Cmd where
  func_name : Option String
  attr_name : Option String
  args : List Obj
  kwargs : List (String × Obj)
  deriving Repr, DecidableEq

/-- Name resolution of `run`: the key `func_name`, falling back to `attr_name`. -/
def cmdName (c : Cmd) : Option String :=
  match c.func_name with
  | some n => some n
  | none => c.attr_name

/-- A response payload: either a returned value or the captured error pair. -/
inductive Payload where
  | val (o : Obj)
  | err (kind : String) (args : List Obj)
  deriving Repr, DecidableEq

/-- The body of the worker loop for one dequeued command (`run`, the
`try`/`except` around `evaluate`): a successful evaluation yields status 200
with the value; any raised exception yields status 500 with
`(e.__class__.__name__, e.args)` and leaves the broker state unchanged. -/
def processCmd (d : Device) (s : ShmState) (c : Cmd) : (Nat × Payload) × ShmState :=
  match evaluateD d s (cmdName c) c.args c.kwargs with
  | .ok (ret, s1) => ((200, .val ret), s1)
  | .error e => ((500, .err e.kind e.args), s)

/-- State of one worker thread: its registration's queue and response cache,
the broker state, and the value of the global stop flag it observes. -/
structure WorkerState where
  queue : List Cmd
  shm : ShmState
  cache : List (Nat × Payload)
  stop : Bool
  deriving Repr, DecidableEq

/-- Result of one worker loop iteration. -/
inductive StepOut where
  | cont (s : WorkerState)
  | exit
  deriving Repr, DecidableEq

/-- One iteration of `EmulatedDeviceServer.run`: `queue.get(timeout=TIMEOUT)`
returns the head command if one is queued (processed and its response appended
to `response_cache`); on `Empty` the loop breaks iff the stop flag is set. -/
def workerStep (d : Device) (s : WorkerState) : StepOut :=
  match s.queue with
  | [] => if s.stop then .exit else .cont s
  | c :: rest =>
    let r := processCmd d s.shm c
    .cont { s with queue := rest, shm := r.2, cache := s.cache ++ [r.1] }

/-- Iterate the worker loop with explicit fuel; `some` is the state at loop
exit, `none` means the loop was still running when fuel ran out. -/
def workerRunFuel (d : Device) : Nat → WorkerState → Option WorkerState
  | 0, _ => none
  | fuel+1, s =>
    match workerStep d s with
    | .exit => some s
    | .cont s1 => workerRunFuel d fuel s1

/-- Responses produced (in order) and the final broker state when the worker
processes a list of commands. -/
def processAll (d : Device) (s : ShmState) : List Cmd → List (Nat × Payload) × ShmState
  | [] => ([], s)
  | c :: rest =>
    let r := processCmd d s c
    let t := processAll d r.2 rest
    (r.1 :: t.1, t.2)

/-- The four blocking waits of the Workers and Listeners named by the
specification. -/
inductive BlockingWait where
  | queueGet
  | condWait
  | sockAccept
  | sockRecv
  deriving Repr, DecidableEq

/-- The timeout each blocking wait is given in the source: the worker's
`queue.get(timeout=TIMEOUT)` and the listener's `settimeout(TIMEOUT)` before
`accept()` are bounded; `is_working.wait()` in `handle` passes no timeout, and
`connection.recv` runs on the accepted socket, which is in blocking mode (no
`settimeout` is ever applied to it, and accepted sockets do not inherit the
listening socket's timeout). -/
def timeoutOf : BlockingWait → Option Rat
  | .queueGet => some TIMEOUT
  | .condWait => none
  | .sockAccept => some TIMEOUT
  | .sockRecv => none

/-- The single `connection.recv(BUFFER_SIZE)` performed per request in
`handle`: at most `BUFFER_SIZE` bytes of the encoded request are returned. -/
def recvOnce (stream : List Nat) : List Nat :=
  stream.take BUFFER_SIZE

/-- Program counter of one submitter (a `handle` invocation) inside its
enqueue-wait-retrieve span: about to enter `with is_working`; holding the
lock before `queue.put`; holding the lock before `is_working.wait()`; inside
`wait()` with the lock released; woken by `notify` and waiting to reacquire;
holding the lock before `response_cache.pop()`; holding the lock after the
pop, about to send and release. -/
inductive SubPC where
  | start
  | hasLock
  | beforeWait
  | waiting
  | runnable
  | afterWait
  | gotResp
  deriving Repr, DecidableEq

/-- Program counter of the worker thread of `run`: blocked at `queue.get`;
holding a dequeued command before `with is_working`; holding the lock before
the append and `notify`; after the append and `notify`, about to release. -/
inductive WPC where
  | idle
  | gotCmd
  | locked
  | postNotify
  deriving Repr, DecidableEq

/-- Owner of the registration's mutex (the lock of `is_working`). -/
inductive LockOwner where
  | free
  | sub (i : Nat)
  | worker
  deriving Repr, DecidableEq

/-- A configuration of one device registration: the submitters' program
counters, the mutex owner, the number of commands in the queue, the number of
responses in `response_cache`, and the worker's program counter.  Only the
counts matter for the single-flight claim. -/
structure Config where
  subs : List SubPC
  lock : LockOwner
  queued : Nat
  cached : Nat
  wpc : WPC
  deriving Repr, DecidableEq

/-- Atomic actions available to submitter `i`, exactly following `handle`:
acquire the mutex, `queue.put` under the mutex, `is_working.wait()` releasing
the mutex, reacquire the mutex after being notified, `response_cache.pop()`
under the mutex (defined only when a response is present), and the release at
the end of the `with` block after which the handler loops to the next request.
A submitter inside `wait()` takes no step until the worker notifies it. -/
def subSteps (c : Config) (i : Nat) : List Config :=
  match c.subs.get? i with
  | none => []
  | some SubPC.start =>
    if c.lock = .free then
      [{ c with lock := .sub i, subs := c.subs.set i .hasLock }] else []
  | some SubPC.hasLock =>
    if c.lock = .sub i then
      [{ c with queued := c.queued + 1, subs := c.subs.set i .beforeWait }] else []
  | some SubPC.beforeWait =>
    if c.lock = .sub i then
      [{ c with lock := .free, subs := c.subs.set i .waiting }] else []
  | some SubPC.waiting => []
  | some SubPC.runnable =>
    if c.lock = .free then
      [{ c with lock := .sub i, subs := c.subs.set i .afterWait }] else []
  | some SubPC.afterWait =>
    if c.lock = .sub i ∧ 0 < c.cached then
      [{ c with cached := c.cached - 1, subs := c.subs.set i .gotResp }] else []
  | some SubPC.gotResp =>
    if c.lock = .sub i then
      [{ c with lock := .free, subs := c.subs.set i .start }] else []

/-- The submitters currently inside `is_working.wait()`. -/
def waiters (c : Config) : List Nat :=
  (List.range c.subs.length).filter (fun i => decide (c.subs.get? i = some SubPC.waiting))

/-- Atomic actions of the worker thread, exactly following `run`:
`queue.get` (succeeds without the mutex when a command is queued), acquiring
the mutex of `with is_working`, processing the command with
`response_cache.append` and `is_working.notify()` under the mutex (`notify`
wakes one arbitrary waiter, or is lost when nobody waits), and the release at
the end of the `with` block. -/
def workerSteps (c : Config) : List Config :=
  match c.wpc with
  | .idle =>
    if 0 < c.queued then [{ c with queued := c.queued - 1, wpc := .gotCmd }] else []
  | .gotCmd =>
    if c.lock = .free then [{ c with lock := .worker, wpc := .locked }] else []
  | .locked =>
    let base : Config := { c with cached := c.cached + 1, wpc := .postNotify }
    match waiters c with
    | [] => [base]
    | ws => ws.map (fun i => { base with subs := base.subs.set i .runnable })
  | .postNotify => [{ c with lock := .free, wpc := .idle }]

/-- All configurations reachable in one interleaved step. -/
def successors (c : Config) : List Config :=
  (List.range c.subs.length).flatMap (fun i => subSteps c i) ++ workerSteps c

/-- One interleaved step of the registration protocol. -/
def CStep (a b : Config) : Prop := b ∈ successors a

/-- Reachability of the registration protocol. -/
def Reach (a b : Config) : Prop := Relation.ReflTransGen CStep a b

/-- Initial configuration with `n` submitters: everybody at the top of their
loop, the mutex free, the queue and the response cache empty. -/
def initConfig (n : Nat) : Config :=
  ⟨List.replicate n .start, .free, 0, 0, .idle⟩

/-- Number of outstanding commands: enqueued commands plus a command the
worker has dequeued but not yet responded to. -/
def outstanding (c : Config) : Nat :=
  c.queued + (match c.wpc with | .gotCmd => 1 | .locked => 1 | _ => 0)

/-- Broker state of a fresh process: nothing registered, nothing mapped. -/
def shmEmpty : ShmState := ⟨none, [], 0, none⟩

/-- Broker state of a fresh process that finds a stale segment of a previous
run registered under `NAME`. -/
def shmStale : ShmState := ⟨some ⟨0, 8⟩, [(0, List.replicate 8 0)], 1, none⟩

/-- A concrete demonstration device used to instantiate the theorems:
a callable returning a primitive, a plain non-callable attribute, a callable
producing a small image array, and a callable that raises. -/
def devDemo : Device :=
  { attrs := fun n =>
      if n = "get_position" then some (.callable 1)
      else if n = "mag" then some (.prim "150")
      else if n = "get_image" then some (.callable 2)
      else if n = "move_to" then some (.callable 3)
      else if n = "frob" then some (.callable 4)
      else none,
    call := fun id args _kwargs =>
      if id = 1 then .ok (.prim "pos")
      else if id = 2 then .ok (.arr [2, 2] "uint8" [1, 2, 3, 4])
      else if id = 3 then .raises "RangeError" args
      else .typeError }

/-- The set of configurations of the one-submitter system that is closed under
`successors`: with a single `handle` loop per registration (the listener runs
handlers sequentially) the protocol cycles through these eleven shapes. -/
def inv1 : List Config :=
  [ ⟨[.start], .free, 0, 0, .idle⟩,
    ⟨[.hasLock], .sub 0, 0, 0, .idle⟩,
    ⟨[.beforeWait], .sub 0, 1, 0, .idle⟩,
    ⟨[.waiting], .free, 1, 0, .idle⟩,
    ⟨[.beforeWait], .sub 0, 0, 0, .gotCmd⟩,
    ⟨[.waiting], .free, 0, 0, .gotCmd⟩,
    ⟨[.waiting], .worker, 0, 0, .locked⟩,
    ⟨[.runnable], .worker, 0, 1, .postNotify⟩,
    ⟨[.runnable], .free, 0, 1, .idle⟩,
    ⟨[.afterWait], .sub 0, 0, 1, .idle⟩,
    ⟨[.gotResp], .sub 0, 0, 0, .idle⟩ ]


/-- The one-submitter configuration set is closed under the protocol steps. -/
theorem inv1_closed : ∀ c ∈ inv1, ∀ b ∈ successors c, b ∈ inv1 := by decide

/-- Every configuration in the one-submitter set has at most one outstanding
command. -/
theorem inv1_outstanding_le : ∀ c ∈ inv1, outstanding c ≤ 1 := by decide

/-- The one-submitter initial configuration lies in the closed set. -/
theorem initConfig_one_mem : initConfig 1 ∈ inv1 := by decide

/-- Claim C1 (counterexample): with two submitters each following `handle`
exactly, a state with two outstanding commands is reachable — the condition
wait releases the registration's mutex, so the second submitter's enqueue is
interleaved ahead of the first submitter's retrieval, refuting the claim that
holding the mutex over the enqueue-wait-retrieve span prevents this. -/
theorem C1_two_submitters_counterexample :
    ¬ (∀ c : Config, Reach (initConfig 2) c → outstanding c ≤ 1) := by
  intro h
  have s1 : CStep (initConfig 2) ⟨[.hasLock, .start], .sub 0, 0, 0, .idle⟩ := by
    unfold CStep; decide
  have s2 : CStep ⟨[.hasLock, .start], .sub 0, 0, 0, .idle⟩
      ⟨[.beforeWait, .start], .sub 0, 1, 0, .idle⟩ := by
    unfold CStep; decide
  have s3 : CStep ⟨[.beforeWait, .start], .sub 0, 1, 0, .idle⟩
      ⟨[.waiting, .start], .free, 1, 0, .idle⟩ := by
    unfold CStep; decide
  have s4 : CStep ⟨[.waiting, .start], .free, 1, 0, .idle⟩
      ⟨[.waiting, .hasLock], .sub 1, 1, 0, .idle⟩ := by
    unfold CStep; decide
  have s5 : CStep ⟨[.waiting, .hasLock], .sub 1, 1, 0, .idle⟩
      ⟨[.waiting, .beforeWait], .sub 1, 2, 0, .idle⟩ := by
    unfold CStep; decide
  have r : Reach (initConfig 2) ⟨[.waiting, .beforeWait], .sub 1, 2, 0, .idle⟩ :=
    Relation.ReflTransGen.head s1 (Relation.ReflTransGen.head s2
      (Relation.ReflTransGen.head s3 (Relation.ReflTransGen.head s4
        (Relation.ReflTransGen.single s5))))
  exact absurd (h _ r) (by decide)

/-- Claim C1 (amended): the single-flight invariant holds because the listener
runs at most one `handle` submitter per registration at a time; in every
configuration reachable by the protocol with one submitter, at most one
command is outstanding.  (The mutex itself does not enforce this: the
condition wait releases it, as the counterexample shows.) -/
theorem C1_single_submitter_invariant (c : Config) (h : Reach (initConfig 1) c) :
    outstanding c ≤ 1 := by
  have hmem : c ∈ inv1 := by
    induction h with
    | refl => exact initConfig_one_mem
    | tail _hab hbc ih => exact inv1_closed _ ih _ hbc
  exact inv1_outstanding_le _ hmem

/-- Witness for the amended C1 theorem at the initial configuration. -/
theorem C1_single_submitter_witness : outstanding (initConfig 1) ≤ 1 :=
  C1_single_submitter_invariant (initConfig 1) Relation.ReflTransGen.refl

/-- Device whose `get_image` attribute is a plain non-callable value. -/
def devAttrImage : Device :=
  { attrs := fun n => if n = "get_image" then some (.prim "5") else none,
    call := fun _ _ _ => .typeError }

/-- Claim C2 (counterexample): for the request naming the existing
non-callable attribute `get_image`, the worker responds with status 500, not
200 with the attribute value — the large-payload special case pushes the
value into the broker, where reading `nbytes` raises `AttributeError`. -/
theorem C2_get_image_attr_counterexample :
    processCmd devAttrImage shmEmpty ⟨some "get_image", none, [], []⟩ =
      ((500, .err "AttributeError" [Obj.prim "nbytes"]), shmEmpty) ∧
    (500, Payload.err "AttributeError" [Obj.prim "nbytes"]) ≠
      (200, Payload.val (Obj.prim "5")) := by
  exact ⟨by decide, by decide⟩

/-- Claim C2 (amended): for every request naming an existing non-callable
attribute whose name is not one of the designated large-payload operations,
the response has status 200 and payload equal to the attribute's value; no
exception surfaces. -/
theorem C2_attr_read_ok (d : Device) (sh : ShmState) (name : String) (v : Obj)
    (args : List Obj) (kwargs : List (String × Obj))
    (hattr : d.attrs name = some v) (hnc : ∀ id, v ≠ Obj.callable id)
    (hnd : designated name = false) :
    processCmd d sh ⟨some name, none, args, kwargs⟩ = ((200, .val v), sh) := by
  cases v with
  | callable id => exact absurd rfl (hnc id)
  | prim t => simp [processCmd, cmdName, evaluateD, hattr, pyCall, hnd]
  | arr sh2 dt b => simp [processCmd, cmdName, evaluateD, hattr, pyCall, hnd]
  | descr n2 sh2 dt => simp [processCmd, cmdName, evaluateD, hattr, pyCall, hnd]

/-- Witness for the amended C2 theorem: reading the plain attribute `mag`. -/
theorem C2_attr_read_witness :
    processCmd devDemo shmEmpty ⟨some "mag", none, [], []⟩ =
      ((200, Payload.val (Obj.prim "150")), shmEmpty) :=
  C2_attr_read_ok devDemo shmEmpty "mag" (Obj.prim "150") [] [] (by decide)
    (fun _ h => Obj.noConfusion h) (by decide)

/-- Claim C3: a dequeued command whose evaluation raises — in particular one
whose operation does not exist on the device, which raises `AttributeError`
at resolution — is answered with status 500 and payload
`(e.__class__.__name__, e.args)`, the response is appended to the cache, and
the worker loop continues rather than exiting. -/
theorem C3_error_response (d : Device) (sh : ShmState) (c : Cmd) :
    (∀ e : PyExc, evaluateD d sh (cmdName c) c.args c.kwargs = .error e →
        processCmd d sh c = ((500, .err e.kind e.args), sh)) ∧
    (∀ name : String, cmdName c = some name → d.attrs name = none →
        evaluateD d sh (cmdName c) c.args c.kwargs =
          .error ⟨"AttributeError", [Obj.prim name]⟩) ∧
    (∀ rest shm cache stop, workerStep d ⟨c :: rest, shm, cache, stop⟩ =
        .cont ⟨rest, (processCmd d shm c).2, cache ++ [(processCmd d shm c).1], stop⟩) := by
  refine ⟨?_, ?_, ?_⟩
  · intro e he
    simp [processCmd, he]
  · intro name hn hattr
    simp [evaluateD, hn, hattr]
  · intro rest shm cache stop
    rfl

/-- Witness for C3: the raising operation `move_to` is answered 500 with the
captured error pair, and a missing operation raises `AttributeError`. -/
theorem C3_error_response_witness :
    processCmd devDemo shmEmpty ⟨some "move_to", none, [Obj.prim "9"], []⟩ =
      ((500, Payload.err "RangeError" [Obj.prim "9"]), shmEmpty) ∧
    evaluateD devDemo shmEmpty (cmdName ⟨some "nope", none, [], []⟩) [] [] =
      .error ⟨"AttributeError", [Obj.prim "nope"]⟩ :=
  ⟨(C3_error_response devDemo shmEmpty ⟨some "move_to", none, [Obj.prim "9"], []⟩).1
      ⟨"RangeError", [Obj.prim "9"]⟩ rfl,
   (C3_error_response devDemo shmEmpty ⟨some "nope", none, [], []⟩).2.1 "nope" rfl rfl⟩

/-- Device whose `get_image` attribute is a callable that raises `TypeError`. -/
def devImageTypeError : Device :=
  { attrs := fun n => if n = "get_image" then some (.callable 7) else none,
    call := fun _ _ _ => .typeError }

/-- Claim C10 (counterexample): a callable `get_image` that raises `TypeError`
is answered 500, not 200 with the callable itself — after the `TypeError`
fallback binds the callable object, the large-payload special case pushes it
into the broker, where reading `nbytes` raises `AttributeError`. -/
theorem C10_get_image_typeerror_counterexample :
    processCmd devImageTypeError shmEmpty ⟨some "get_image", none, [], []⟩ =
      ((500, .err "AttributeError" [Obj.prim "nbytes"]), shmEmpty) ∧
    (500, Payload.err "AttributeError" [Obj.prim "nbytes"]) ≠
      (200, Payload.val (Obj.callable 7)) := by
  exact ⟨by decide, by decide⟩

/-- Claim C10 (amended): for an operation outside the designated large-payload
set that resolves to a callable, a `TypeError` raised at the call — for any
reason — yields status 200 with the callable object itself as payload, and
the 500 branch is taken exactly for the other exceptions the call raises. -/
theorem C10_typeerror_fallback (d : Device) (sh : ShmState) (name : String) (id : Nat)
    (args : List Obj) (kwargs : List (String × Obj))
    (hattr : d.attrs name = some (Obj.callable id)) (hnd : designated name = false) :
    (d.call id args kwargs = .typeError →
        processCmd d sh ⟨some name, none, args, kwargs⟩ =
          ((200, .val (Obj.callable id)), sh)) ∧
    (∀ k a, d.call id args kwargs = .raises k a →
        processCmd d sh ⟨some name, none, args, kwargs⟩ = ((500, .err k a), sh)) := by
  constructor
  · intro hc
    simp [processCmd, cmdName, evaluateD, hattr, pyCall, hc, hnd]
  · intro k a hc
    simp [processCmd, cmdName, evaluateD, hattr, pyCall, hc]

/-- Witness for the amended C10 theorem: the callable `frob` raising
`TypeError` is answered 200 with the callable itself. -/
theorem C10_typeerror_fallback_witness :
    processCmd devDemo shmEmpty ⟨some "frob", none, [], []⟩ =
      ((200, Payload.val (Obj.callable 4)), shmEmpty) :=
  (C10_typeerror_fallback devDemo shmEmpty "frob" 4 [] [] (by decide) (by decide)).1
    (by decide)

/-- Claim C4 (counterexample): not every blocking wait of the Workers and
Listeners carries a bounded timeout — the condition wait in `handle` is
called with no timeout at all, and the accepted socket's `recv` is a plain
blocking read, so a thread inside a connection is not guaranteed to observe
the stop flag within the polling interval. -/
theorem C4_unbounded_wait_counterexample :
    ¬ (∀ w : BlockingWait, ∃ t : Rat, timeoutOf w = some t ∧ t ≤ TIMEOUT) := by
  intro h
  rcases h .condWait with ⟨t, ht, _⟩
  simp [timeoutOf] at ht

/-- Claim C4 (amended): the worker's queue retrieval and the listener's accept
are bounded by exactly the polling interval — so an idle worker exits at its
next wakeup once the stop flag is set — but the connection handler's condition
wait and socket read carry no timeout, so a listener thread inside an active
connection is not bounded by the polling interval. -/
theorem C4_bounded_polls :
    timeoutOf .queueGet = some TIMEOUT ∧ timeoutOf .sockAccept = some TIMEOUT ∧
    TIMEOUT ≤ TIMEOUT ∧ timeoutOf .condWait = none ∧ timeoutOf .sockRecv = none ∧
    (∀ (d : Device) (shm : ShmState) (cache : List (Nat × Payload)),
        workerStep d ⟨[], shm, cache, true⟩ = .exit) :=
  ⟨rfl, rfl, le_refl TIMEOUT, rfl, rfl, fun _ _ _ => rfl⟩

/-- The worker produces exactly one response per queued command. -/
theorem processAll_length (d : Device) (s : ShmState) (q : List Cmd) :
    (processAll d s q).1.length = q.length := by
  induction q generalizing s with
  | nil => rfl
  | cons c rest ih => simp [processAll, ih]

/-- Drain lemma: with the stop flag set, the worker processes every queued
command in order, appending one response each, and exits with an empty queue
within `queue.length + 1` iterations. -/
theorem workerDrain (d : Device) (q : List Cmd) (shm : ShmState)
    (cache : List (Nat × Payload)) :
    workerRunFuel d (q.length + 1) ⟨q, shm, cache, true⟩ =
      some ⟨[], (processAll d shm q).2, cache ++ (processAll d shm q).1, true⟩ := by
  induction q generalizing shm cache with
  | nil => simp [workerRunFuel, workerStep, processAll]
  | cons c rest ih =>
    have h1 : workerRunFuel d ((c :: rest).length + 1) ⟨c :: rest, shm, cache, true⟩ =
        workerRunFuel d (rest.length + 1)
          ⟨rest, (processCmd d shm c).2, cache ++ [(processCmd d shm c).1], true⟩ := rfl
    rw [h1, ih]
    simp [processAll, List.append_assoc]

/-- Claim C5: the worker loop exits only when its queue is empty and the stop
flag is set; with the stop flag set, every already-queued command is dequeued,
processed, and answered with a response published to the cache — one response
per command, in order — before the worker exits. -/
theorem C5_no_lost_commands (d : Device) (ws : WorkerState) :
    (workerStep d ws = .exit → ws.queue = [] ∧ ws.stop = true) ∧
    (ws.stop = true →
        workerRunFuel d (ws.queue.length + 1) ws =
          some ⟨[], (processAll d ws.shm ws.queue).2,
                ws.cache ++ (processAll d ws.shm ws.queue).1, true⟩) ∧
    (processAll d ws.shm ws.queue).1.length = ws.queue.length := by
  obtain ⟨q, shm, cache, stop⟩ := ws
  refine ⟨?_, ?_, ?_⟩
  · intro h
    cases q with
    | nil =>
      cases stop with
      | false => simp [workerStep] at h
      | true => exact ⟨rfl, rfl⟩
    | cons c rest => simp [workerStep] at h
  · intro h
    subst h
    exact workerDrain d q shm cache
  · exact processAll_length d shm q

/-- Witness for C5: a one-command queue is drained into one 200 response. -/
theorem C5_no_lost_commands_witness :
    workerRunFuel devDemo 2 ⟨[⟨some "get_position", none, [], []⟩], shmEmpty, [], true⟩ =
      some ⟨[], shmEmpty, [(200, Payload.val (Obj.prim "pos"))], true⟩ :=
  (C5_no_lost_commands devDemo ⟨[⟨some "get_position", none, [], []⟩], shmEmpty, [], true⟩).2.1 rfl

/-- The broker's allocation method is deterministic: whatever handle it
releases and whatever stale segment it reclaims, it ends with a fresh segment
carrying the next allocation identity, zero-filled contents in the heap, and
the handle stored in `memory`. -/
theorem shmInit_eq (s : ShmState) (n : Nat) :
    shmInit s n = .ok ⟨some ⟨s.nextId, n⟩, (s.nextId, List.replicate n 0) :: s.bufs,
                       s.nextId + 1, some ⟨s.nextId, n⟩⟩ := by
  cases hm : s.memory <;> cases hn : s.named <;>
    simp [shmInit, releaseP, createSeg, hm, hn]

/-- Well-formedness of reachable broker states: the mapped handle is the
registered segment, its contents exist in the heap, and its identity precedes
the allocation counter. -/
def shmWF (s : ShmState) : Prop :=
  ∀ m, s.memory = some m →
    m.sid < s.nextId ∧ s.named = some m ∧
      (s.bufs.find? (fun p => decide (p.1 = m.sid))).isSome = true

/-- After overwriting segment `sid`, looking the segment up finds exactly the
new contents. -/
theorem find_writeBuf (bufs : List (Nat × List Nat)) (sid : Nat) (b : List Nat)
    (h : (bufs.find? (fun p => decide (p.1 = sid))).isSome = true) :
    (writeBuf bufs sid b).find? (fun p => decide (p.1 = sid)) = some (sid, b) := by
  induction bufs with
  | nil => simp [List.find?] at h
  | cons hd tl ih =>
    by_cases hh : hd.1 = sid
    · simp [writeBuf, hh, List.find?]
    · have h2 : (tl.find? (fun p => decide (p.1 = sid))).isSome = true := by
        simpa [List.find?_cons_of_neg, hh] using h
      simpa [writeBuf, hh, List.find?_cons_of_neg] using ih h2

/-- Push without reallocation: when the mapped buffer already has the
payload's byte size, only its contents are overwritten. -/
theorem pushP_no_realloc (s : ShmState) (sh : List Nat) (dt : String) (b : List Nat)
    (m : Seg) (hm : s.memory = some m) (hsize : m.size = b.length) :
    pushP s (.arr sh dt b) = .ok { s with bufs := writeBuf s.bufs m.sid b } := by
  simp [pushP, hm, hsize]

/-- Push with reallocation: when no buffer is mapped or the byte sizes
differ, a fresh segment is allocated and filled with the payload bytes. -/
theorem pushP_realloc (s : ShmState) (sh : List Nat) (dt : String) (b : List Nat)
    (hneed : s.memory = none ∨ ∃ m, s.memory = some m ∧ m.size ≠ b.length) :
    pushP s (.arr sh dt b) =
      .ok ⟨some ⟨s.nextId, b.length⟩,
           (s.nextId, b) :: writeBuf s.bufs s.nextId b,
           s.nextId + 1, some ⟨s.nextId, b.length⟩⟩ := by
  rcases hneed with hm | ⟨m, hm, hsz⟩
  · simp [pushP, hm, shmInit_eq, writeBuf]
  · simp [pushP, hm, hsz, shmInit_eq, writeBuf]

/-- Claim C6: a push allocates a new shared buffer exactly when no buffer
exists or the byte sizes differ; after a push the live buffer holds exactly
the payload's bytes; and two consecutive pushes with different byte sizes use
two distinct allocations, a reader of the second descriptor seeing only the
second payload's bytes. -/
theorem C6_shared_buffer (s : ShmState) (hwf : shmWF s)
    (sh1 sh2 : List Nat) (dt1 dt2 : String) (b1 b2 : List Nat)
    (hne : b1.length ≠ b2.length) :
    ∃ s1 s2 m1 m2,
      pushP s (.arr sh1 dt1 b1) = .ok s1 ∧
      pushP s1 (.arr sh2 dt2 b2) = .ok s2 ∧
      (∀ m, s.memory = some m → m.size = b1.length →
          s1.nextId = s.nextId ∧ s1.memory = some m) ∧
      ((s.memory = none ∨ ∃ m, s.memory = some m ∧ m.size ≠ b1.length) →
          s1.nextId = s.nextId + 1 ∧ s1.memory = some ⟨s.nextId, b1.length⟩) ∧
      readShared s1 = some b1 ∧ readShared s2 = some b2 ∧
      s1.memory = some m1 ∧ s2.memory = some m2 ∧ m1.sid ≠ m2.sid := by
  cases hm : s.memory with
  | none =>
    refine ⟨_, _, ⟨s.nextId, b1.length⟩, ⟨s.nextId + 1, b2.length⟩,
      pushP_realloc s sh1 dt1 b1 (Or.inl hm),
      pushP_realloc _ sh2 dt2 b2 (Or.inr ⟨⟨s.nextId, b1.length⟩, rfl, hne⟩),
      ?_, ?_, ?_, ?_, rfl, rfl, ?_⟩
    · intro m hmm
      simp [hm] at hmm
    · intro _
      exact ⟨rfl, rfl⟩
    · simp [readShared, List.find?]
    · simp [readShared, List.find?]
    · simp
  | some m =>
    by_cases hsz : m.size = b1.length
    · obtain ⟨hlt, hnamed, hfind⟩ := hwf m hm
      refine ⟨_, _, m, ⟨s.nextId, b2.length⟩,
        pushP_no_realloc s sh1 dt1 b1 m hm hsz,
        pushP_realloc _ sh2 dt2 b2 (Or.inr ⟨m, hm, by rw [hsz]; exact hne⟩),
        ?_, ?_, ?_, ?_, hm, rfl, ?_⟩
      · intro m2 hm2 _
        injection hm2 with h2
        exact ⟨rfl, show s.memory = some m2 from h2 ▸ hm⟩
      · intro hcontr
        rcases hcontr with hx | ⟨mx, hmx, hszx⟩
        · exact absurd hx (by simp)
        · injection hmx with h3
          subst h3
          exact absurd hsz hszx
      · show readShared { s with bufs := writeBuf s.bufs m.sid b1 } = some b1
        simp [readShared, hnamed, find_writeBuf s.bufs m.sid b1 hfind]
      · simp [readShared, List.find?]
      · exact Nat.ne_of_lt hlt
    · refine ⟨_, _, ⟨s.nextId, b1.length⟩, ⟨s.nextId + 1, b2.length⟩,
        pushP_realloc s sh1 dt1 b1 (Or.inr ⟨m, hm, hsz⟩),
        pushP_realloc _ sh2 dt2 b2 (Or.inr ⟨⟨s.nextId, b1.length⟩, rfl, hne⟩),
        ?_, ?_, ?_, ?_, rfl, rfl, ?_⟩
      · intro m2 hm2 hsz2
        injection hm2 with h3
        subst h3
        exact absurd hsz2 hsz
      · intro _
        exact ⟨rfl, rfl⟩
      · simp [readShared, List.find?]
      · simp [readShared, List.find?]
      · simp

/-- Witness for C6 from the fresh broker state with two payloads of one and
two bytes. -/
theorem C6_shared_buffer_witness :
    ∃ s1 s2 m1 m2,
      pushP shmEmpty (.arr [1] "uint8" [7]) = .ok s1 ∧
      pushP s1 (.arr [2] "uint8" [8, 9]) = .ok s2 ∧
      (∀ m, shmEmpty.memory = some m → m.size = [7].length →
          s1.nextId = shmEmpty.nextId ∧ s1.memory = some m) ∧
      ((shmEmpty.memory = none ∨ ∃ m, shmEmpty.memory = some m ∧ m.size ≠ [7].length) →
          s1.nextId = shmEmpty.nextId + 1 ∧
            s1.memory = some ⟨shmEmpty.nextId, [7].length⟩) ∧
      readShared s1 = some [7] ∧ readShared s2 = some [8, 9] ∧
      s1.memory = some m1 ∧ s2.memory = some m2 ∧ m1.sid ≠ m2.sid :=
  C6_shared_buffer shmEmpty (fun _ hm => nomatch hm) [1] [2] "uint8" "uint8"
    [7] [8, 9] (by decide)

/-- Claim C7: `release` is idempotent — a no-op on a never-initialized broker,
closing and unlinking the segment and clearing the state when one exists, and
changing nothing (raising nothing, being a total function) when repeated. -/
theorem C7_release_idempotent (s : ShmState) :
    releaseP (releaseP s) = releaseP s ∧
    (s.memory = none → releaseP s = s) ∧
    (∀ m, s.memory = some m →
        (releaseP s).memory = none ∧ (releaseP s).named = none) := by
  cases hm : s.memory with
  | none => exact ⟨by simp [releaseP, hm], fun _ => by simp [releaseP, hm], by simp [hm]⟩
  | some m => exact ⟨by simp [releaseP, hm], by simp [hm], fun _ _ => by simp [releaseP, hm]⟩

/-- Witness for C7 on a broker with a mapped segment and on a fresh one. -/
theorem C7_release_idempotent_witness :
    releaseP (releaseP ⟨some ⟨0, 4⟩, [(0, [1, 2, 3, 4])], 1, some ⟨0, 4⟩⟩) =
      releaseP ⟨some ⟨0, 4⟩, [(0, [1, 2, 3, 4])], 1, some ⟨0, 4⟩⟩ ∧
    (releaseP ⟨some ⟨0, 4⟩, [(0, [1, 2, 3, 4])], 1, some ⟨0, 4⟩⟩).memory = none ∧
    releaseP shmEmpty = shmEmpty :=
  ⟨(C7_release_idempotent ⟨some ⟨0, 4⟩, [(0, [1, 2, 3, 4])], 1, some ⟨0, 4⟩⟩).1,
   ((C7_release_idempotent ⟨some ⟨0, 4⟩, [(0, [1, 2, 3, 4])], 1, some ⟨0, 4⟩⟩).2.2
      ⟨0, 4⟩ rfl).1,
   (C7_release_idempotent shmEmpty).2.1 rfl⟩

/-- Claim C8: when a stale segment is registered under the broker's fixed
identifier, the first creation attempt fails, the stale segment is reclaimed
and creation is retried exactly once, succeeding with a fresh allocation; and
any exception raised while producing a command's payload is confined to that
command — answered as a status 500 device invocation error — with the worker
loop continuing. -/
theorem C8_stale_recovery (s : ShmState) (n : Nat) (st : Seg)
    (hmem : s.memory = none) (hst : s.named = some st) :
    createSeg (releaseP s) n = none ∧
    shmInit s n = .ok ⟨some ⟨s.nextId, n⟩, (s.nextId, List.replicate n 0) :: s.bufs,
                       s.nextId + 1, some ⟨s.nextId, n⟩⟩ ∧
    (st.sid ≠ s.nextId →
        ∀ sg, (⟨some ⟨s.nextId, n⟩, (s.nextId, List.replicate n 0) :: s.bufs,
               s.nextId + 1, some ⟨s.nextId, n⟩⟩ : ShmState).named = some sg → sg ≠ st) ∧
    (∀ (d : Device) (sh : ShmState) (c : Cmd) (e : PyExc),
        evaluateD d sh (cmdName c) c.args c.kwargs = .error e →
        processCmd d sh c = ((500, .err e.kind e.args), sh)) ∧
    (∀ (d : Device) (q : List Cmd) (c : Cmd) (sh : ShmState)
        (cache : List (Nat × Payload)) (stop : Bool),
        workerStep d ⟨c :: q, sh, cache, stop⟩ ≠ .exit) := by
  refine ⟨?_, shmInit_eq s n, ?_, ?_, ?_⟩
  · simp [releaseP, createSeg, hmem, hst]
  · intro hne sg hsg
    injection hsg with h2
    intro hcon
    subst hcon
    exact hne (congrArg Seg.sid h2).symm
  · intro d sh c e he
    simp [processCmd, he]
  · intro d q c sh cache stop
    simp [workerStep]

/-- Witness for C8: recovery from the concrete stale state, and a raising
command answered 500 with the worker continuing. -/
theorem C8_stale_recovery_witness :
    createSeg (releaseP shmStale) 16 = none ∧
    shmInit shmStale 16 = .ok ⟨some ⟨1, 16⟩, (1, List.replicate 16 0) :: shmStale.bufs,
                               2, some ⟨1, 16⟩⟩ ∧
    processCmd devDemo shmEmpty ⟨some "move_to", none, [], []⟩ =
      ((500, Payload.err "RangeError" []), shmEmpty) ∧
    workerStep devDemo ⟨[⟨some "move_to", none, [], []⟩], shmEmpty, [], true⟩ ≠ .exit :=
  ⟨(C8_stale_recovery shmStale 16 ⟨0, 8⟩ rfl rfl).1,
   (C8_stale_recovery shmStale 16 ⟨0, 8⟩ rfl rfl).2.1,
   (C8_stale_recovery shmStale 16 ⟨0, 8⟩ rfl rfl).2.2.2.1 devDemo shmEmpty
      ⟨some "move_to", none, [], []⟩ ⟨"RangeError", []⟩ rfl,
   (C8_stale_recovery shmStale 16 ⟨0, 8⟩ rfl rfl).2.2.2.2 devDemo [] ⟨some "move_to", none, [], []⟩
      shmEmpty [] true⟩

/-- Claim C9: the single fixed-size `recv` truncates any request encoding
longer than `BUFFER_SIZE` — the connection handler passes at most
`BUFFER_SIZE` bytes to the decoder, so it does not receive the entire request
before acting on it. -/
theorem C9_recv_truncates :
    recvOnce (List.replicate 1025 7) ≠ List.replicate 1025 7 ∧
    (recvOnce (List.replicate 1025 7)).length = BUFFER_SIZE := by
  have hlen : (recvOnce (List.replicate 1025 7)).length = BUFFER_SIZE := by
    simp only [recvOnce, BUFFER_SIZE, List.length_take, List.length_replicate]
    omega
  refine ⟨?_, hlen⟩
  intro h
  have h2 := congrArg List.length h
  rw [hlen] at h2
  simp only [BUFFER_SIZE, List.length_replicate] at h2
  omega
